import Mathlib

/-!
Verification development for the charge-mix optimization pipeline
(src/mech.py).  The pipeline translates tabular raw-material data,
target ranges, a furnace size and an element selection into a linear
program, solves it, and back-computes the resulting composition and
derived mechanical properties.  All numeric data is modelled over the
rationals; tables are modelled as lists kept in row order.
-/

namespace Mech

/-- Base hardness constant (mech.py line 9). -/
def HARDNESS_CONSTANT : ℚ := 50

/-- Hardness coefficients per element (mech.py lines 10-20), in the
dictionary insertion order of the source. -/
def HARDNESS_COEFFS : List (String × ℚ) :=
  [("C", 40), ("Si", -15), ("Mn", 10), ("S", -5), ("P", -5),
   ("Cu", 4), ("Ni", 3), ("Mo", 2), ("Cr", 3)]

/-- Base tensile constant (mech.py line 22). -/
def TENSILE_CONSTANT : ℚ := 300

/-- Tensile coefficients per element (mech.py lines 23-33). -/
def TENSILE_COEFFS : List (String × ℚ) :=
  [("C", 20), ("Si", -10), ("Mn", 25), ("S", -10), ("P", -2),
   ("Cu", 5), ("Ni", 8), ("Mo", 5), ("Cr", 5)]

/-- One row of the raw-material composition table: name, unit cost, and
the mapping element symbol to mass-fraction percentage.  Elements absent
from the mapping are treated as 0 (spec section 3). -/
structure Material where
  name : String
  cost : ℚ
  comp : List (String × ℚ)
deriving DecidableEq, Repr

/-- Percentage of element e in material m; absent elements give 0. -/
def Material.pct (m : Material) (e : String) : ℚ :=
  (m.comp.lookup e).getD 0

/-- One row of the target-range table: property name (element symbol or
a derived-property name), minimum and maximum. -/
structure TargetRow where
  prop : String
  min : ℚ
  max : ℚ
deriving DecidableEq, Repr

/-- One inequality row of the linear program, in the form
dot a x ≤ b (scipy linprog A_ub, b_ub convention). -/
structure IneqRow where
  a : List ℚ
  b : ℚ
deriving DecidableEq, Repr

/-- The assembled linear program (mech.py sections G-J): objective
vector, inequality rows, equality matrix and vector, variable bounds. -/
structure LPProblem where
  c : List ℚ
  A_ub : List IneqRow
  A_eq : List (List ℚ)
  b_eq : List ℚ
  bounds : List (ℚ × ℚ)
deriving DecidableEq, Repr

/-- Dot product of two coefficient lists (np.dot on equal-length
vectors; zipWith truncates to the shorter list). -/
def dot (u v : List ℚ) : ℚ := (List.zipWith (· * ·) u v).sum

/-- Negation of a coefficient vector (numpy unary minus on an array). -/
def negVec (v : List ℚ) : List ℚ := v.map (fun q => -q)

/-- Row filter applied to the target table (mech.py lines 122-124):
keep rows whose Property is a selected element or a derived property. -/
def filteredTargets (sel : List String) (ts : List TargetRow) : List TargetRow :=
  ts.filter (fun r => sel.contains r.prop || r.prop == "Hardness"
    || r.prop == "Tensile Strength")

/-- First row of the target table with the given property name, if any
(mech.py pattern target_data.loc[...].values[0], which takes the first
matching row and errors when there is none). -/
def findTarget (ts : List TargetRow) (p : String) : Option TargetRow :=
  ts.find? (fun r => r.prop == p)

/-- Per-ton contribution of one material to a derived property
(mech.py lines 129-141): sum over coefficient entries whose element is
among the selected columns of coefficient times percentage. -/
def contribPerTon (coeffs : List (String × ℚ)) (sel : List String)
    (m : Material) : ℚ :=
  (coeffs.filter (fun p => sel.contains p.1)).foldl
    (fun acc p => acc + p.2 * m.pct p.1) 0

/-- Hardness contribution array over the material rows (line 143). -/
def hardnessArray (sel : List String) (mats : List Material) : List ℚ :=
  mats.map (contribPerTon HARDNESS_COEFFS sel)

/-- Tensile contribution array over the material rows (line 144). -/
def tensileArray (sel : List String) (mats : List Material) : List ℚ :=
  mats.map (contribPerTon TENSILE_COEFFS sel)

/-- Column of percentages for one element over the material rows
(mech.py composition_data[prop].values). -/
def propArray (mats : List Material) (e : String) : List ℚ :=
  mats.map (fun m => m.pct e)

/-- The four derived-property inequality rows, in the order the source
appends them (mech.py lines 158-192): hardness lower, hardness upper,
tensile lower, tensile upper. -/
def derivedRows (h t : List ℚ) (hr tr : TargetRow) (F : ℚ) : List IneqRow :=
  [ ⟨negVec h, -(F * (hr.min - HARDNESS_CONSTANT))⟩
  , ⟨h, F * (hr.max - HARDNESS_CONSTANT)⟩
  , ⟨negVec t, -(F * (tr.min - TENSILE_CONSTANT))⟩
  , ⟨t, F * (tr.max - TENSILE_CONSTANT)⟩ ]

/-- Inequality rows for one selected element (mech.py lines 201-215):
if the filtered target table has a row for it, a lower-bound row then an
upper-bound row with the raw percentage column as coefficients. -/
def elemRowsFor (ts : List TargetRow) (mats : List Material) (F : ℚ)
    (p : String) : List IneqRow :=
  match findTarget ts p with
  | some r =>
      [ ⟨negVec (propArray mats p), -(F * r.min)⟩
      , ⟨propArray mats p, F * r.max⟩ ]
  | none => []

/-- All elemental inequality rows, in selected-element order. -/
def elemRows (sel : List String) (ts : List TargetRow)
    (mats : List Material) (F : ℚ) : List IneqRow :=
  (sel.map (elemRowsFor ts mats F)).flatten

/-- Assembly of the linear program (mech.py sections F-J).  The source
extracts Hardness and Tensile Strength ranges with .values[0], which
raises when no such row exists in the filtered target table; that
failure is modelled as none.  The objective is the cost column (with
the documented missing-cost-to-0 default already applied, line 230). -/
def buildProblem (mats : List Material) (targets : List TargetRow)
    (sel : List String) (F : ℚ) (bounds : List (ℚ × ℚ)) :
    Option LPProblem :=
  match findTarget (filteredTargets sel targets) "Hardness",
        findTarget (filteredTargets sel targets) "Tensile Strength" with
  | some hr, some tr =>
      some { c := mats.map Material.cost
           , A_ub := derivedRows (hardnessArray sel mats)
               (tensileArray sel mats) hr tr F
               ++ elemRows sel (filteredTargets sel targets) mats F
           , A_eq := [List.replicate mats.length (1 : ℚ)]
           , b_eq := [F]
           , bounds := bounds }
  | _, _ => none

/-- Satisfaction of one inequality row by a mass vector. -/
def satRow (x : List ℚ) (r : IneqRow) : Prop := dot r.a x ≤ r.b

/-- Resulting absolute composition per selected element (mech.py lines
262-264): dot product of the solution masses with the raw percentage
column. -/
def finalComposition (sel : List String) (mats : List Material)
    (x : List ℚ) : List (String × ℚ) :=
  sel.map (fun e => (e, dot x (propArray mats e)))

/-- Resulting average composition per element (mech.py line 270):
absolute composition divided by furnace size. -/
def avgComposition (sel : List String) (mats : List Material)
    (x : List ℚ) (F : ℚ) : List (String × ℚ) :=
  (finalComposition sel mats x).map (fun p => (p.1, p.2 / F))

/-- Reported final average hardness (mech.py lines 275-276). -/
def avgHardness (sel : List String) (mats : List Material)
    (x : List ℚ) (F : ℚ) : ℚ :=
  HARDNESS_CONSTANT + dot (hardnessArray sel mats) x / F

/-- Reported final average tensile strength (mech.py lines 278-279). -/
def avgTensile (sel : List String) (mats : List Material)
    (x : List ℚ) (F : ℚ) : ℚ :=
  TENSILE_CONSTANT + dot (tensileArray sel mats) x / F

/-- Outcome of one pipeline run. -/
inductive PipelineResult where
  | success : List ℚ → PipelineResult
  | invalid : PipelineResult
  | infeasibleFinal : PipelineResult
deriving DecidableEq, Repr

/-- The furnace-size numeric input widget (mech.py lines 89-92):
declared with min_value 0.1, so a requested value below that bound is
rejected and never reaches the pipeline. -/
def numberInput (minValue v : ℚ) : Option ℚ :=
  if v < minValue then none else some v

/-- One full build-and-solve run: acquire the furnace size through the
bounded input widget, assemble the problem, then hand it to the solver
(mech.py lines 89-92 and 235-248).  The solver is abstract: some x on
a feasible solve, none on infeasibility. -/
def runPipeline (solver : LPProblem → Option (List ℚ))
    (mats : List Material) (targets : List TargetRow) (sel : List String)
    (requestedF : ℚ) (bounds : List (ℚ × ℚ)) : PipelineResult :=
  match numberInput (1/10) requestedF with
  | none => .invalid
  | some F =>
      match buildProblem mats targets sel F bounds with
      | none => .invalid
      | some p =>
          match solver p with
          | some x => .success x
          | none => .infeasibleFinal

/-! Helper lemmas about the dot product and table lookups. -/

@[simp]
theorem dot_nil_left (v : List ℚ) : dot [] v = 0 := rfl

@[simp]
theorem dot_nil_right (u : List ℚ) : dot u [] = 0 := by
  cases u <;> rfl

@[simp]
theorem dot_cons (a : ℚ) (u : List ℚ) (b : ℚ) (v : List ℚ) :
    dot (a :: u) (b :: v) = a * b + dot u v := by
  simp [dot]

theorem dot_negVec (v x : List ℚ) : dot (negVec v) x = -dot v x := by
  induction v generalizing x with
  | nil => simp [negVec]
  | cons a v ih =>
      cases x with
      | nil => simp
      | cons b x =>
          have h : negVec (a :: v) = (-a) :: negVec v := rfl
          rw [h, dot_cons, dot_cons, ih]; ring

theorem dot_scale_left (c : ℚ) (u v : List ℚ) :
    dot (u.map (fun q => c * q)) v = c * dot u v := by
  induction u generalizing v with
  | nil => simp
  | cons a u ih =>
      cases v with
      | nil => simp
      | cons b v => simp [ih]; ring

theorem dot_comm (u v : List ℚ) : dot u v = dot v u := by
  induction u generalizing v with
  | nil => simp
  | cons a u ih =>
      cases v with
      | nil => simp
      | cons b v => simp [ih]; ring

theorem lookup_map_self (f : String → ℚ) (e : String) (sel : List String)
    (he : e ∈ sel) :
    (sel.map (fun s => (s, f s))).lookup e = some (f e) := by
  induction sel with
  | nil => cases he
  | cons a l ih =>
      rw [List.map_cons]
      by_cases h : e = a
      · subst h; simp [List.lookup]
      · rw [List.mem_cons] at he
        rcases he with he | he
        · exact absurd he h
        · have hb : (e == a) = false := by simp [h]
          simp only [List.lookup, hb]
          exact ih he

/-- Successful assembly, characterized: when the filtered target table
has a Hardness row and a Tensile Strength row, buildProblem returns the
problem with derived-property rows first, then elemental rows, one
mass-balance equality row, and the given bounds. -/
theorem buildProblem_eq (mats : List Material) (targets : List TargetRow)
    (sel : List String) (F : ℚ) (bounds : List (ℚ × ℚ)) (hr tr : TargetRow)
    (hH : findTarget (filteredTargets sel targets) "Hardness" = some hr)
    (hT : findTarget (filteredTargets sel targets) "Tensile Strength" = some tr) :
    buildProblem mats targets sel F bounds =
      some { c := mats.map Material.cost
           , A_ub := derivedRows (hardnessArray sel mats)
               (tensileArray sel mats) hr tr F
               ++ elemRows sel (filteredTargets sel targets) mats F
           , A_eq := [List.replicate mats.length (1 : ℚ)]
           , b_eq := [F]
           , bounds := bounds } := by
  unfold buildProblem
  rw [hH, hT]

/-! Claims. -/

/-- C1 counterexample: the claim states the elemental rows carry the
percentage column divided by 100.  With one material that is 100
percent carbon, a carbon target range of 1 to 2 and furnace size 10,
the rows the code emits carry coefficient 100, not 100/100. -/
theorem C1_counterexample :
    elemRows ["C"] [⟨"C", 1, 2⟩] [⟨"M", 0, [("C", 100)]⟩] 10 ≠
      [⟨[-(100 / 100 : ℚ)], -(10 * 1)⟩, ⟨[(100 / 100 : ℚ)], 10 * 2⟩] := by
  simp [elemRows, elemRowsFor, findTarget, propArray, negVec, Material.pct,
    List.find?, List.lookup]

/-- C1 amended: for every selected element with a target range in the
filtered target table, the builder emits exactly two inequality rows
whose coefficient vector is the raw percentage column (not divided by
100), and a mass vector satisfies them exactly when
min times furnace size ≤ sum of percentage times mass ≤ max times
furnace size. -/
theorem C1_amended_elem_rows (ts : List TargetRow) (mats : List Material)
    (F : ℚ) (p : String) (r : TargetRow) (x : List ℚ)
    (hfind : findTarget ts p = some r) :
    elemRowsFor ts mats F p =
      [ ⟨negVec (propArray mats p), -(F * r.min)⟩
      , ⟨propArray mats p, F * r.max⟩ ] ∧
    ((satRow x ⟨negVec (propArray mats p), -(F * r.min)⟩ ∧
      satRow x ⟨propArray mats p, F * r.max⟩) ↔
     (F * r.min ≤ dot (propArray mats p) x ∧
      dot (propArray mats p) x ≤ F * r.max)) := by
  constructor
  · unfold elemRowsFor
    rw [hfind]
  · simp only [satRow, dot_negVec]
    constructor
    · rintro ⟨h1, h2⟩
      exact ⟨by linarith, h2⟩
    · rintro ⟨h1, h2⟩
      exact ⟨by linarith, h2⟩

/-- C1 witness at a concrete instance. -/
theorem C1_amended_witness :
    elemRowsFor [⟨"C", 1, 2⟩] [⟨"M", 0, [("C", 100)]⟩] 10 "C" =
      [ ⟨negVec (propArray [⟨"M", 0, [("C", 100)]⟩] "C"), -(10 * (1 : ℚ))⟩
      , ⟨propArray [⟨"M", 0, [("C", 100)]⟩] "C", 10 * (2 : ℚ)⟩ ] ∧
    ((satRow [5] ⟨negVec (propArray [⟨"M", 0, [("C", 100)]⟩] "C"), -(10 * (1 : ℚ))⟩ ∧
      satRow [5] ⟨propArray [⟨"M", 0, [("C", 100)]⟩] "C", 10 * (2 : ℚ)⟩) ↔
     (10 * (1 : ℚ) ≤ dot (propArray [⟨"M", 0, [("C", 100)]⟩] "C") [5] ∧
      dot (propArray [⟨"M", 0, [("C", 100)]⟩] "C") [5] ≤ 10 * (2 : ℚ))) :=
  C1_amended_elem_rows [⟨"C", 1, 2⟩] [⟨"M", 0, [("C", 100)]⟩] 10 "C"
    ⟨"C", 1, 2⟩ [5] rfl

/-- C2 counterexample: the claim states the reported absolute
composition is the dot product divided by 100.  With one material that
is 100 percent carbon and a solution of 10 tons, the code reports
10 times 100 = 1000, not 10. -/
theorem C2_counterexample :
    finalComposition ["C"] [⟨"M", 0, [("C", 100)]⟩] [10] ≠
      [("C", ((10 * 100 : ℚ) / 100))] := by
  simp [finalComposition, propArray, Material.pct, List.lookup]

/-- C2 amended: for every selected element, the reported absolute
composition is the dot product of the solution masses with the raw
percentage column (no division by 100), and the reported average
composition is that value divided by furnace size. -/
theorem C2_amended_composition (sel : List String) (mats : List Material)
    (x : List ℚ) (F : ℚ) (e : String) (he : e ∈ sel) :
    (finalComposition sel mats x).lookup e =
      some (dot x (propArray mats e)) ∧
    (avgComposition sel mats x F).lookup e =
      some (dot x (propArray mats e) / F) := by
  constructor
  · exact lookup_map_self (fun s => dot x (propArray mats s)) e sel he
  · unfold avgComposition finalComposition
    rw [List.map_map]
    exact lookup_map_self (fun s => dot x (propArray mats s) / F) e sel he

/-- C2 witness at a concrete instance. -/
theorem C2_amended_witness :
    (finalComposition ["C"] [⟨"M", 0, [("C", 100)]⟩] [10]).lookup "C" =
      some (dot [10] (propArray [⟨"M", 0, [("C", 100)]⟩] "C")) ∧
    (avgComposition ["C"] [⟨"M", 0, [("C", 100)]⟩] [10] 10).lookup "C" =
      some (dot [10] (propArray [⟨"M", 0, [("C", 100)]⟩] "C") / 10) :=
  C2_amended_composition ["C"] [⟨"M", 0, [("C", 100)]⟩] [10] 10 "C"
    (by simp)

/-- C3: whenever assembly succeeds, the problem has exactly one
equality row, with coefficient 1 for every material variable and
right-hand side furnace size; all other constraints live in the
inequality rows. -/
theorem C3_mass_balance (mats : List Material) (targets : List TargetRow)
    (sel : List String) (F : ℚ) (bounds : List (ℚ × ℚ)) (hr tr : TargetRow)
    (hH : findTarget (filteredTargets sel targets) "Hardness" = some hr)
    (hT : findTarget (filteredTargets sel targets) "Tensile Strength" = some tr) :
    (buildProblem mats targets sel F bounds).map LPProblem.A_eq =
      some [List.replicate mats.length (1 : ℚ)] ∧
    (buildProblem mats targets sel F bounds).map LPProblem.b_eq = some [F] ∧
    (buildProblem mats targets sel F bounds).map
      (fun p => p.A_eq.length) = some 1 := by
  rw [buildProblem_eq mats targets sel F bounds hr tr hH hT]
  exact ⟨rfl, rfl, rfl⟩

/-- C3 witness at a concrete instance. -/
theorem C3_mass_balance_witness :
    (buildProblem [⟨"M", 0, []⟩]
        [⟨"Hardness", 0, 100⟩, ⟨"Tensile Strength", 200, 400⟩]
        [] 10 [(0, 10)]).map LPProblem.A_eq =
      some [List.replicate 1 (1 : ℚ)] ∧
    (buildProblem [⟨"M", 0, []⟩]
        [⟨"Hardness", 0, 100⟩, ⟨"Tensile Strength", 200, 400⟩]
        [] 10 [(0, 10)]).map LPProblem.b_eq = some [10] ∧
    (buildProblem [⟨"M", 0, []⟩]
        [⟨"Hardness", 0, 100⟩, ⟨"Tensile Strength", 200, 400⟩]
        [] 10 [(0, 10)]).map (fun p => p.A_eq.length) = some 1 :=
  C3_mass_balance [⟨"M", 0, []⟩]
    [⟨"Hardness", 0, 100⟩, ⟨"Tensile Strength", 200, 400⟩]
    [] 10 [(0, 10)] ⟨"Hardness", 0, 100⟩ ⟨"Tensile Strength", 200, 400⟩
    rfl rfl

theorem dot_scale_right (c : ℚ) (u v : List ℚ) :
    dot u (v.map (fun q => c * q)) = c * dot u v := by
  rw [dot_comm, dot_scale_left, dot_comm]

/-- C5: average-mode reporting is invariant to furnace size.  Scaling
every solution mass by 2 and the furnace size by 2 leaves the whole
reported average-composition table and both reported derived
properties unchanged. -/
theorem C5_scale_invariance (sel : List String) (mats : List Material)
    (x : List ℚ) (F : ℚ) :
    avgComposition sel mats (x.map (fun q => 2 * q)) (2 * F) =
      avgComposition sel mats x F ∧
    avgHardness sel mats (x.map (fun q => 2 * q)) (2 * F) =
      avgHardness sel mats x F ∧
    avgTensile sel mats (x.map (fun q => 2 * q)) (2 * F) =
      avgTensile sel mats x F := by
  have h2 : (2 : ℚ) ≠ 0 := by norm_num
  refine ⟨?_, ?_, ?_⟩
  · unfold avgComposition finalComposition
    rw [List.map_map, List.map_map]
    apply List.map_congr_left
    intro e _
    simp only [Function.comp_apply]
    rw [dot_scale_left, mul_div_mul_left _ _ h2]
  · unfold avgHardness
    rw [dot_scale_right, mul_div_mul_left _ _ h2]
  · unfold avgTensile
    rw [dot_scale_right, mul_div_mul_left _ _ h2]

/-- C6: round trip between builder and interpreter.  Any mass vector
satisfying the four derived-property rows the builder emits (and the
mass-balance equality) is reported by the interpreter with average
hardness and average tensile strength inside the target ranges. -/
theorem C6_round_trip (sel : List String) (mats : List Material)
    (x : List ℚ) (F : ℚ) (hr tr : TargetRow) (hF : 0 < F)
    (_hmass : dot (List.replicate mats.length (1 : ℚ)) x = F)
    (hsat : ∀ row ∈ derivedRows (hardnessArray sel mats)
      (tensileArray sel mats) hr tr F, satRow x row) :
    hr.min ≤ avgHardness sel mats x F ∧
    avgHardness sel mats x F ≤ hr.max ∧
    tr.min ≤ avgTensile sel mats x F ∧
    avgTensile sel mats x F ≤ tr.max := by
  have h1 := hsat _ (by simp [derivedRows] :
    (⟨negVec (hardnessArray sel mats),
      -(F * (hr.min - HARDNESS_CONSTANT))⟩ : IneqRow) ∈ _)
  have h2 := hsat _ (by simp [derivedRows] :
    (⟨hardnessArray sel mats,
      F * (hr.max - HARDNESS_CONSTANT)⟩ : IneqRow) ∈ _)
  have h3 := hsat _ (by simp [derivedRows] :
    (⟨negVec (tensileArray sel mats),
      -(F * (tr.min - TENSILE_CONSTANT))⟩ : IneqRow) ∈ _)
  have h4 := hsat _ (by simp [derivedRows] :
    (⟨tensileArray sel mats,
      F * (tr.max - TENSILE_CONSTANT)⟩ : IneqRow) ∈ _)
  simp only [satRow, dot_negVec] at h1 h2 h3 h4
  unfold avgHardness avgTensile
  refine ⟨?_, ?_, ?_, ?_⟩
  · have hh : (hr.min - HARDNESS_CONSTANT) * F ≤
        dot (hardnessArray sel mats) x := by
      have hc := mul_comm F (hr.min - HARDNESS_CONSTANT)
      linarith
    have := (le_div_iff₀ hF).mpr hh
    linarith
  · have hh : dot (hardnessArray sel mats) x ≤
        (hr.max - HARDNESS_CONSTANT) * F := by
      have hc := mul_comm F (hr.max - HARDNESS_CONSTANT)
      linarith
    have := (div_le_iff₀ hF).mpr hh
    linarith
  · have hh : (tr.min - TENSILE_CONSTANT) * F ≤
        dot (tensileArray sel mats) x := by
      have hc := mul_comm F (tr.min - TENSILE_CONSTANT)
      linarith
    have := (le_div_iff₀ hF).mpr hh
    linarith
  · have hh : dot (tensileArray sel mats) x ≤
        (tr.max - TENSILE_CONSTANT) * F := by
      have hc := mul_comm F (tr.max - TENSILE_CONSTANT)
      linarith
    have := (div_le_iff₀ hF).mpr hh
    linarith

/-- C6 witness at a concrete instance. -/
theorem C6_round_trip_witness :
    (0 : ℚ) ≤ avgHardness [] [⟨"M", 0, []⟩] [10] 10 ∧
    avgHardness [] [⟨"M", 0, []⟩] [10] 10 ≤ 100 ∧
    (200 : ℚ) ≤ avgTensile [] [⟨"M", 0, []⟩] [10] 10 ∧
    avgTensile [] [⟨"M", 0, []⟩] [10] 10 ≤ 400 :=
  C6_round_trip [] [⟨"M", 0, []⟩] [10] 10
    ⟨"Hardness", 0, 100⟩ ⟨"Tensile Strength", 200, 400⟩
    (by norm_num)
    (by simp [List.replicate])
    (by
      intro row hrow
      simp [derivedRows, hardnessArray, tensileArray, contribPerTon,
        HARDNESS_COEFFS, TENSILE_COEFFS, HARDNESS_CONSTANT,
        TENSILE_CONSTANT, Material.pct, negVec] at hrow
      rcases hrow with h | h | h | h <;> subst h <;>
        simp [satRow, dot, HARDNESS_CONSTANT, TENSILE_CONSTANT] <;>
        norm_num)

/-- C7 counterexample: with an empty element set and a target table
with no derived-property rows, the pipeline errors (the source indexes
.values[0] on an empty selection, modelled as none) instead of
reducing to the mass-balance equality and bounds. -/
theorem C7_counterexample :
    buildProblem [⟨"M", 0, []⟩] [] [] 10 [(0, 10)] = none := rfl

/-- C7 amended: with an empty element set the pipeline errors unless
the target table still carries Hardness and Tensile Strength rows;
when it does, assembly succeeds and the problem reduces to the
mass-balance equality, the four derived-property rows, and the
per-material bounds. -/
theorem C7_amended_empty_elements (mats : List Material)
    (targets : List TargetRow) (F : ℚ) (bounds : List (ℚ × ℚ))
    (hr tr : TargetRow)
    (hH : findTarget (filteredTargets [] targets) "Hardness" = some hr)
    (hT : findTarget (filteredTargets [] targets) "Tensile Strength" = some tr) :
    buildProblem mats targets [] F bounds =
      some { c := mats.map Material.cost
           , A_ub := derivedRows (hardnessArray [] mats)
               (tensileArray [] mats) hr tr F
           , A_eq := [List.replicate mats.length (1 : ℚ)]
           , b_eq := [F]
           , bounds := bounds } := by
  rw [buildProblem_eq mats targets [] F bounds hr tr hH hT]
  simp [elemRows]

/-- C7 witness at a concrete instance. -/
theorem C7_amended_witness :
    buildProblem [⟨"M", 0, []⟩]
        [⟨"Hardness", 0, 100⟩, ⟨"Tensile Strength", 200, 400⟩]
        [] 10 [(0, 10)] =
      some { c := [⟨"M", 0, []⟩].map Material.cost
           , A_ub := derivedRows (hardnessArray [] [⟨"M", 0, []⟩])
               (tensileArray [] [⟨"M", 0, []⟩])
               ⟨"Hardness", 0, 100⟩ ⟨"Tensile Strength", 200, 400⟩ 10
           , A_eq := [List.replicate 1 (1 : ℚ)]
           , b_eq := [10]
           , bounds := [(0, 10)] } :=
  C7_amended_empty_elements [⟨"M", 0, []⟩]
    [⟨"Hardness", 0, 100⟩, ⟨"Tensile Strength", 200, 400⟩]
    10 [(0, 10)] ⟨"Hardness", 0, 100⟩ ⟨"Tensile Strength", 200, 400⟩
    rfl rfl

/-- C8: a furnace size at or below zero is rejected by the bounded
input before any constraint building or solving: the run yields
invalid for every solver and every table. -/
theorem C8_furnace_size_guard (solver : LPProblem → Option (List ℚ))
    (mats : List Material) (targets : List TargetRow) (sel : List String)
    (bounds : List (ℚ × ℚ)) (F : ℚ) (hF : F ≤ 0) :
    runPipeline solver mats targets sel F bounds =
      PipelineResult.invalid := by
  have h : F < 1 / 10 := lt_of_le_of_lt hF (by norm_num)
  unfold runPipeline numberInput
  rw [if_pos h]

/-- C8 witness at a concrete instance. -/
theorem C8_furnace_size_guard_witness :
    runPipeline (fun _ => none) [] [] [] 0 [] =
      PipelineResult.invalid :=
  C8_furnace_size_guard (fun _ => none) [] [] [] [] 0 (by norm_num)

/-- Modelled from the spec: the Feasibility Relaxation component (spec
section 4.5) is not part of src/mech.py, which on infeasibility only
reports failure; the repository keeps relaxation in other pipeline
variants.  Relaxation widens every min by (1 - factor) and every max
by (1 + factor). -/
def relaxTargets (ts : List TargetRow) (factor : ℚ) : List TargetRow :=
  ts.map (fun r => ⟨r.prop, r.min * (1 - factor), r.max * (1 + factor)⟩)

/-- Modelled from the spec: the relaxation-enabled pipeline runs the
exact problem; on infeasibility it re-runs once with relaxed targets
and then stops.  The second component records the target tables
attempted, in order. -/
def runWithRelaxation (solver : LPProblem → Option (List ℚ))
    (mats : List Material) (targets : List TargetRow) (sel : List String)
    (F : ℚ) (bounds : List (ℚ × ℚ)) (factor : ℚ) :
    PipelineResult × List (List TargetRow) :=
  match buildProblem mats targets sel F bounds with
  | none => (.invalid, [])
  | some p =>
      match solver p with
      | some x => (.success x, [targets])
      | none =>
          match buildProblem mats (relaxTargets targets factor) sel F bounds with
          | none => (.invalid, [targets, relaxTargets targets factor])
          | some p2 =>
              match solver p2 with
              | some x => (.success x, [targets, relaxTargets targets factor])
              | none =>
                  (.infeasibleFinal, [targets, relaxTargets targets factor])

/-- C4: when the exact problem is infeasible, exactly one relaxed
re-attempt is made, with every min multiplied by (1 - factor) and
every max by (1 + factor); when the relaxed attempt is also
infeasible the run ends in final failure with exactly those two
attempts on record. -/
theorem C4_relaxation_policy (solver : LPProblem → Option (List ℚ))
    (mats : List Material) (targets : List TargetRow) (sel : List String)
    (F : ℚ) (bounds : List (ℚ × ℚ)) (factor : ℚ)
    (h1 : (buildProblem mats targets sel F bounds).map solver = some none)
    (h2 : (buildProblem mats (relaxTargets targets factor) sel F
      bounds).map solver = some none) :
    runWithRelaxation solver mats targets sel F bounds factor =
      (PipelineResult.infeasibleFinal,
        [targets, relaxTargets targets factor]) ∧
    relaxTargets targets factor =
      targets.map (fun r =>
        TargetRow.mk r.prop (r.min * (1 - factor)) (r.max * (1 + factor))) := by
  refine ⟨?_, rfl⟩
  cases hb : buildProblem mats targets sel F bounds with
  | none => rw [hb] at h1; simp at h1
  | some p =>
      rw [hb] at h1
      rw [Option.map_some'] at h1
      have hs : solver p = none := Option.some.inj h1
      cases hb2 : buildProblem mats (relaxTargets targets factor)
          sel F bounds with
      | none => rw [hb2] at h2; simp at h2
      | some p2 =>
          rw [hb2] at h2
          rw [Option.map_some'] at h2
          have hs2 : solver p2 = none := Option.some.inj h2
          unfold runWithRelaxation
          rw [hb]
          dsimp only
          rw [hs]
          dsimp only
          rw [hb2]
          dsimp only
          rw [hs2]

/-- C4 witness at a concrete instance, with the always-infeasible
solver. -/
theorem C4_relaxation_policy_witness :
    runWithRelaxation (fun _ => none) [⟨"M", 0, []⟩]
        [⟨"Hardness", 0, 100⟩, ⟨"Tensile Strength", 200, 400⟩]
        [] 10 [(0, 10)] (1 / 20) =
      (PipelineResult.infeasibleFinal,
        [[⟨"Hardness", 0, 100⟩, ⟨"Tensile Strength", 200, 400⟩],
         relaxTargets
           [⟨"Hardness", 0, 100⟩, ⟨"Tensile Strength", 200, 400⟩]
           (1 / 20)]) ∧
    relaxTargets [⟨"Hardness", 0, 100⟩, ⟨"Tensile Strength", 200, 400⟩]
        (1 / 20) =
      ([⟨"Hardness", 0, 100⟩, ⟨"Tensile Strength", 200, 400⟩] :
          List TargetRow).map
        (fun r => TargetRow.mk r.prop (r.min * (1 - 1 / 20))
          (r.max * (1 + 1 / 20))) :=
  C4_relaxation_policy (fun _ => none) [⟨"M", 0, []⟩]
    [⟨"Hardness", 0, 100⟩, ⟨"Tensile Strength", 200, 400⟩]
    [] 10 [(0, 10)] (1 / 20) rfl rfl

/-- C9 counterexample: the claim puts the elemental rows first.  On a
concrete instance the assembled inequality list does not equal the
elemental rows followed by the derived-property rows: the code appends
the derived-property rows first. -/
theorem C9_counterexample :
    (buildProblem [⟨"M", 5, [("C", 100)]⟩]
        [⟨"C", 1, 2⟩, ⟨"Hardness", 0, 100⟩, ⟨"Tensile Strength", 200, 400⟩]
        ["C"] 10 [(0, 10)]).map LPProblem.A_ub ≠
      some (elemRows ["C"]
          (filteredTargets ["C"]
            [⟨"C", 1, 2⟩, ⟨"Hardness", 0, 100⟩,
             ⟨"Tensile Strength", 200, 400⟩])
          [⟨"M", 5, [("C", 100)]⟩] 10 ++
        derivedRows (hardnessArray ["C"] [⟨"M", 5, [("C", 100)]⟩])
          (tensileArray ["C"] [⟨"M", 5, [("C", 100)]⟩])
          ⟨"Hardness", 0, 100⟩ ⟨"Tensile Strength", 200, 400⟩ 10) := by
  simp [buildProblem, elemRows, elemRowsFor, derivedRows, findTarget,
    filteredTargets, hardnessArray, tensileArray, contribPerTon,
    HARDNESS_COEFFS, TENSILE_COEFFS, HARDNESS_CONSTANT, TENSILE_CONSTANT,
    propArray, negVec, Material.pct, List.find?, List.lookup, List.filter]

/-- C9 amended: the inequality rows appear in insertion order with the
four derived-property rows first (hardness lower, hardness upper,
tensile lower, tensile upper), followed by the elemental rows in
selected-element order. -/
theorem C9_amended_row_order (mats : List Material)
    (targets : List TargetRow) (sel : List String) (F : ℚ)
    (bounds : List (ℚ × ℚ)) (hr tr : TargetRow)
    (hH : findTarget (filteredTargets sel targets) "Hardness" = some hr)
    (hT : findTarget (filteredTargets sel targets) "Tensile Strength" = some tr) :
    (buildProblem mats targets sel F bounds).map LPProblem.A_ub =
      some (derivedRows (hardnessArray sel mats) (tensileArray sel mats)
          hr tr F ++
        elemRows sel (filteredTargets sel targets) mats F) ∧
    derivedRows (hardnessArray sel mats) (tensileArray sel mats) hr tr F =
      [ ⟨negVec (hardnessArray sel mats),
          -(F * (hr.min - HARDNESS_CONSTANT))⟩
      , ⟨hardnessArray sel mats, F * (hr.max - HARDNESS_CONSTANT)⟩
      , ⟨negVec (tensileArray sel mats),
          -(F * (tr.min - TENSILE_CONSTANT))⟩
      , ⟨tensileArray sel mats, F * (tr.max - TENSILE_CONSTANT)⟩ ] := by
  refine ⟨?_, rfl⟩
  rw [buildProblem_eq mats targets sel F bounds hr tr hH hT]
  rfl

/-- C9 witness at a concrete instance. -/
theorem C9_amended_witness :
    (buildProblem [⟨"M", 5, [("C", 100)]⟩]
        [⟨"C", 1, 2⟩, ⟨"Hardness", 0, 100⟩, ⟨"Tensile Strength", 200, 400⟩]
        ["C"] 10 [(0, 10)]).map LPProblem.A_ub =
      some (derivedRows
          (hardnessArray ["C"] [⟨"M", 5, [("C", 100)]⟩])
          (tensileArray ["C"] [⟨"M", 5, [("C", 100)]⟩])
          ⟨"Hardness", 0, 100⟩ ⟨"Tensile Strength", 200, 400⟩ 10 ++
        elemRows ["C"]
          (filteredTargets ["C"]
            [⟨"C", 1, 2⟩, ⟨"Hardness", 0, 100⟩,
             ⟨"Tensile Strength", 200, 400⟩])
          [⟨"M", 5, [("C", 100)]⟩] 10) ∧
    derivedRows (hardnessArray ["C"] [⟨"M", 5, [("C", 100)]⟩])
        (tensileArray ["C"] [⟨"M", 5, [("C", 100)]⟩])
        ⟨"Hardness", 0, 100⟩ ⟨"Tensile Strength", 200, 400⟩ 10 =
      [ ⟨negVec (hardnessArray ["C"] [⟨"M", 5, [("C", 100)]⟩]),
          -((10 : ℚ) * ((0 : ℚ) - HARDNESS_CONSTANT))⟩
      , ⟨hardnessArray ["C"] [⟨"M", 5, [("C", 100)]⟩],
          (10 : ℚ) * ((100 : ℚ) - HARDNESS_CONSTANT)⟩
      , ⟨negVec (tensileArray ["C"] [⟨"M", 5, [("C", 100)]⟩]),
          -((10 : ℚ) * ((200 : ℚ) - TENSILE_CONSTANT))⟩
      , ⟨tensileArray ["C"] [⟨"M", 5, [("C", 100)]⟩],
          (10 : ℚ) * ((400 : ℚ) - TENSILE_CONSTANT)⟩ ] :=
  C9_amended_row_order [⟨"M", 5, [("C", 100)]⟩]
    [⟨"C", 1, 2⟩, ⟨"Hardness", 0, 100⟩, ⟨"Tensile Strength", 200, 400⟩]
    ["C"] 10 [(0, 10)] ⟨"Hardness", 0, 100⟩ ⟨"Tensile Strength", 200, 400⟩
    rfl rfl

/-- Row predicate used by the target-table filter. -/
def keepRow (sel : List String) (r : TargetRow) : Bool :=
  sel.contains r.prop || r.prop == "Hardness" || r.prop == "Tensile Strength"

theorem filteredTargets_eq_filter (sel : List String)
    (ts : List TargetRow) :
    filteredTargets sel ts = ts.filter (keepRow sel) := rfl

/-- Inserting a row whose property already occurs earlier in the table
never changes any first-match lookup on the filtered table. -/
theorem findTarget_insert_dup (sel : List String)
    (pre post : List TargetRow) (r : TargetRow)
    (hdup : ∃ r0 ∈ pre, r0.prop = r.prop) (q : String) :
    findTarget (filteredTargets sel (pre ++ r :: post)) q =
      findTarget (filteredTargets sel (pre ++ post)) q := by
  obtain ⟨r0, hr0mem, hr0⟩ := hdup
  rw [filteredTargets_eq_filter, filteredTargets_eq_filter]
  unfold findTarget
  rw [List.filter_append, List.filter_append, List.filter_cons]
  by_cases hcond : keepRow sel r = true
  · rw [if_pos hcond]
    rw [List.find?_append, List.find?_append]
    by_cases hq : r.prop = q
    · have hkeep0 : keepRow sel r0 = true := by
        unfold keepRow at hcond ⊢
        rw [hr0]
        exact hcond
      have hmem : r0 ∈ pre.filter (keepRow sel) :=
        List.mem_filter.mpr ⟨hr0mem, hkeep0⟩
      have hmatch : ((fun t : TargetRow => t.prop == q) r0) = true := by
        simp [hr0, hq]
      have hsome : ((pre.filter (keepRow sel)).find?
          (fun t => t.prop == q)).isSome := by
        rw [List.find?_isSome]
        exact ⟨r0, hmem, hmatch⟩
      obtain ⟨v, hv⟩ := Option.isSome_iff_exists.mp hsome
      rw [hv]
      rfl
    · have hne : (r.prop == q) = false := by
        simp [hq]
      simp only [List.find?_cons, hne]
  · rw [if_neg hcond]

/-- C10: a target-table row whose Property already occurs earlier has
no effect on the assembled problem; only the first matching row's Min
and Max are used. -/
theorem C10_duplicate_target_rows (mats : List Material)
    (pre post : List TargetRow) (r : TargetRow) (sel : List String)
    (F : ℚ) (bounds : List (ℚ × ℚ))
    (hdup : ∃ r0 ∈ pre, r0.prop = r.prop) :
    buildProblem mats (pre ++ r :: post) sel F bounds =
      buildProblem mats (pre ++ post) sel F bounds := by
  have hq := findTarget_insert_dup sel pre post r hdup
  have hElem : elemRows sel (filteredTargets sel (pre ++ r :: post))
      mats F = elemRows sel (filteredTargets sel (pre ++ post)) mats F := by
    unfold elemRows
    congr 1
    apply List.map_congr_left
    intro p _
    unfold elemRowsFor
    rw [hq p]
  unfold buildProblem
  rw [hq "Hardness", hq "Tensile Strength", hElem]

/-- C10 witness at a concrete instance: appending a duplicate Hardness
row leaves the assembled problem unchanged. -/
theorem C10_duplicate_witness :
    buildProblem [⟨"M", 0, []⟩]
        ([⟨"Hardness", 0, 100⟩, ⟨"Tensile Strength", 200, 400⟩] ++
          ⟨"Hardness", 50, 60⟩ :: [])
        [] 10 [(0, 10)] =
      buildProblem [⟨"M", 0, []⟩]
        ([⟨"Hardness", 0, 100⟩, ⟨"Tensile Strength", 200, 400⟩] ++ [])
        [] 10 [(0, 10)] :=
  C10_duplicate_target_rows [⟨"M", 0, []⟩]
    [⟨"Hardness", 0, 100⟩, ⟨"Tensile Strength", 200, 400⟩]
    [] ⟨"Hardness", 50, 60⟩ [] 10 [(0, 10)]
    ⟨⟨"Hardness", 0, 100⟩, by simp, rfl⟩

end Mech
